import Mathlib

/-!
Verification development for the AI-Chat-Application server (`src/server.js`).

The source file concatenates three variants of the same Express server,
differing only in persistence: a flat-JSON-file store (lines 1-377), a SQLite
store (lines 379-728) and an in-memory-array store (lines 730-1063).  The
shallow embedding below models the file-backed and in-memory variants: the
request handlers become pure functions from a store value (plus the request
data, the freshly generated uuids, the current timestamps, and the outcome of
the external model-completion call, all passed as explicit arguments) to the
updated store and the HTTP response.
-/

namespace AIChat

/-! ## Data model -/

/-- A chat message as stored in `messages.json` by the file variant
(`server.js` lines 246-253): fields `id`, `conversation_id`, `role`,
`content`, `created_at`, `message_type`. -/
structure Message where
  id : String
  conversation_id : String
  role : String
  content : String
  created_at : String
  message_type : String
deriving DecidableEq

/-- A conversation record as stored in `conversations.json`
(`server.js` lines 157-161): `id`, `title`, `created_at`.  The title comes
from the request body and may be absent, hence `Option`. -/
structure Conversation where
  id : String
  title : Option String
  created_at : String
deriving DecidableEq

/-- A debug message as stored in `debug_messages.json`
(`server.js` lines 313-319): like a chat message but with no
`message_type` field. -/
structure FileDebugMessage where
  id : String
  conversation_id : String
  role : String
  content : String
  created_at : String
deriving DecidableEq

/-- The file variant's whole persistent state: the three JSON documents
`conversations.json`, `messages.json` and `debug_messages.json`, each holding
one array. -/
structure FileStore where
  conversations : List Conversation
  messages : List Message
  debugMessages : List FileDebugMessage
deriving DecidableEq

/-! ## Request / response shapes -/

/-- One attachment of a chat request: `files: [{data: encoded}]`. -/
structure FileAttachment where
  data : String
deriving DecidableEq

/-- Body of `POST /api/chat`: `{ message, conversationId, files }`
(`server.js` line 173).  `files` may be absent. -/
structure ChatRequest where
  message : String
  conversationId : String
  files : Option (List FileAttachment)
deriving DecidableEq

/-- One segment of a multi-part user turn: either
`{ type: "text", text }` or `{ type: "image_url", image_url: { url } }`
(`server.js` lines 208-218). -/
inductive PromptPart where
  | textPart (text : String)
  | imageUrlPart (url : String)
deriving DecidableEq

/-- The `content` of a prompt message: a plain string or a list of parts. -/
inductive PromptContent where
  | str (s : String)
  | parts (segments : List PromptPart)
deriving DecidableEq

/-- One element of the `messages` array sent to the completion API. -/
structure PromptMessage where
  role : String
  content : PromptContent
deriving DecidableEq

/-- The payload of `openaiClient.chat.completions.create`
(`server.js` lines 234-238): `{ model, messages, max_tokens: 1000 }`. -/
structure CompletionRequest where
  model : String
  messages : List PromptMessage
  max_tokens : Nat
deriving DecidableEq

/-- The `message` object inside one completion choice. -/
structure ChoiceMessage where
  role : String
  content : String
deriving DecidableEq

/-- One element of `completion.choices`. -/
structure Choice where
  message : ChoiceMessage
deriving DecidableEq

/-- A successful response of the completion API. -/
structure Completion where
  choices : List Choice
deriving DecidableEq

/-- An error raised by the completion client, as inspected by the catch block
(`server.js` lines 271-303): its `status` (absent for non-HTTP errors) and
the `retry-after` entry of `error.headers` (absent when there is no such
header, modelling `error.headers?.['retry-after']`). -/
structure ApiError where
  status : Option Int
  retryAfter : Option String
deriving DecidableEq

/-- Outcome of `POST /api/chat` as sent to the client: the four explicit
response shapes of the handler, or `thrown` when the error is re-raised past
the handler (`server.js` line 301, and the implicit TypeError when
`completion.choices` is empty at line 240). -/
inductive ChatResult where
  | success (message : String) (conversationId : String)
  | rateLimited (error : String) (retryAfter : Int) (code : String)
  | payloadTooLarge (error : String) (code : String)
  | badRequest (error : String) (code : String)
  | thrown
deriving DecidableEq

/-- HTTP status of each `ChatResult` (none when the exception escapes the
handler). -/
def ChatResult.statusCode : ChatResult → Option Nat
  | .success _ _ => some 200
  | .rateLimited _ _ _ => some 429
  | .payloadTooLarge _ _ => some 413
  | .badRequest _ _ => some 400
  | .thrown => none

/-! ## JS number parsing and the rate-limit arithmetic -/

/-- Value of a character as a digit in the given radix, when it is one
(JS `parseInt` accepts `0-9`, `a-z`, `A-Z` up to the radix). -/
def digitVal? (radix : Nat) (c : Char) : Option Nat :=
  let v : Option Nat :=
    if '0' ≤ c ∧ c ≤ '9' then some (c.toNat - '0'.toNat)
    else if 'a' ≤ c ∧ c ≤ 'z' then some (c.toNat - 'a'.toNat + 10)
    else if 'A' ≤ c ∧ c ≤ 'Z' then some (c.toNat - 'A'.toNat + 10)
    else none
  match v with
  | some d => if d < radix then some d else none
  | none => none

/-- Read the leading digit run of `cs` in the given radix; `none` when no
digit is consumed (`parseInt` then yields NaN). -/
def parseDigits (radix : Nat) (cs : List Char) : Option Nat :=
  let ds := cs.takeWhile (fun c => (digitVal? radix c).isSome)
  if ds.isEmpty then none
  else some (ds.foldl (fun acc c => acc * radix + (digitVal? radix c).getD 0) 0)

/-- JS `parseInt(x)` for `x` an optional string (an absent header reads as
`undefined`, and `parseInt(undefined)` is NaN, modelled `none`): skip leading
whitespace, take an optional sign, detect a `0x`/`0X` hexadecimal prefix
(default radix 10), then read the digit prefix; NaN (`none`) when no digit
follows. -/
def parseIntJS : Option String → Option Int
  | none => none
  | some s =>
    let cs := s.data.dropWhile Char.isWhitespace
    let signAndRest : Int × List Char :=
      match cs with
      | '-' :: rest => (-1, rest)
      | '+' :: rest => (1, rest)
      | _ => (1, cs)
    let radixAndDigits : Nat × List Char :=
      match signAndRest.2 with
      | '0' :: 'x' :: rest => (16, rest)
      | '0' :: 'X' :: rest => (16, rest)
      | _ => (10, signAndRest.2)
    match parseDigits radixAndDigits.1 radixAndDigits.2 with
    | none => none
    | some n => some (signAndRest.1 * (n : Int))

/-- JS `v || 0` applied to the result of `parseInt`: NaN (`none`) becomes 0;
a parsed 0 is falsy but `0 || 0` is 0 as well, so `some v` always yields
`v`. -/
def jsOrZero : Option Int → Int
  | none => 0
  | some v => v

/-- The wait-time message of the 429 branch (`server.js` lines 274-283):
`waitTimeMinutes = Math.ceil(waitTimeSeconds / 60)` (for an exact integer
ratio, `Math.ceil (a / 60) = Int.fdiv (a + 59) 60`),
`waitTimeHours = Math.floor(waitTimeMinutes / 60) = Int.fdiv waitTimeMinutes 60`,
and JS `%` is truncating remainder, `Int.tmod`. -/
def rateLimitWaitMessage (waitTimeSeconds : Int) : String :=
  let waitTimeMinutes : Int := Int.fdiv (waitTimeSeconds + 59) 60
  let waitTimeHours : Int := Int.fdiv waitTimeMinutes 60
  if waitTimeHours > 0 then
    "Rate limit exceeded. " ++ "Please wait approximately " ++ toString waitTimeHours ++
      " hours and " ++ toString (Int.tmod waitTimeMinutes 60) ++ " minutes before trying again."
  else
    "Rate limit exceeded. " ++ "Please wait approximately " ++ toString waitTimeMinutes ++
      " minutes before trying again."

/-- The catch block of `POST /api/chat` (`server.js` lines 271-303), shared
verbatim by all three variants: map a 429 to the rate-limit response, a 413
and a 400 to their static bodies, and re-raise anything else. -/
def handleChatError (e : ApiError) : ChatResult :=
  if e.status = some 429 then
    let waitTimeSeconds : Int := jsOrZero (parseIntJS e.retryAfter)
    ChatResult.rateLimited (rateLimitWaitMessage waitTimeSeconds) waitTimeSeconds
      "RATE_LIMIT_EXCEEDED"
  else if e.status = some 413 then
    ChatResult.payloadTooLarge "File size is too large. Maximum allowed size is 1MB per file."
      "PAYLOAD_TOO_LARGE"
  else if e.status = some 400 then
    ChatResult.badRequest "Invalid request. Please check your inputs." "BAD_REQUEST"
  else ChatResult.thrown

/-! ## Prompt building and the completion payload -/

/-- The fixed system instruction (`server.js` lines 179-202). -/
def systemPromptText : String :=
  "You are an advanced AI assistant specialized in programming and mathematics. Your capabilities include:\n\n1. Programming:\n   - Code analysis and debugging\n   - Algorithm optimization\n   - Best practices and design patterns\n   - Multiple programming languages expertise\n   - Code review and suggestions\n\n2. Mathematics:\n   - Advanced mathematical problem-solving\n   - Step-by-step solution explanations\n   - Mathematical proofs\n   - Statistical analysis\n   - Numerical methods and computations\n\n3. Image Analysis:\n   - Code screenshot analysis\n   - Mathematical equation recognition\n   - Diagram and flowchart interpretation\n   - Whiteboard content analysis\n   - Mathematical graph interpretation\n\nProvide detailed, accurate solutions with explanations. When dealing with code, include comments and best practices. For mathematical problems, show step-by-step solutions with clear reasoning."

/-- The system turn that opens every prompt. -/
def systemMessage : PromptMessage :=
  { role := "system", content := PromptContent.str systemPromptText }

/-- Build the `messages` array of the completion request
(`server.js` lines 176-225).  The JS guard is `files && files.length > 0`:
with attachments, the user turn is one text segment (`message` falling back
to the default prompt when empty, via JS `||`) followed by one image segment
per attachment carrying `file.data`; otherwise the user turn is the plain
`message` string. -/
def buildMessages (message : String) (files : Option (List FileAttachment)) :
    List PromptMessage :=
  match files with
  | some fs =>
    if fs.length > 0 then
      [systemMessage,
       { role := "user",
         content := PromptContent.parts
           (PromptPart.textPart
              (if message = "" then "What do you see in these images?" else message) ::
            fs.map (fun file => PromptPart.imageUrlPart file.data)) }]
    else [systemMessage, { role := "user", content := PromptContent.str message }]
  | none => [systemMessage, { role := "user", content := PromptContent.str message }]

/-- The payload of the single completion call (`server.js` lines 234-238):
the currently selected model, the built messages, `max_tokens: 1000`. -/
def chatRequestPayload (currentModel : String) (req : ChatRequest) : CompletionRequest :=
  { model := currentModel
    messages := buildMessages req.message req.files
    max_tokens := 1000 }

/-! ## Model selection -/

/-- The property names every plain JS object literal inherits from
`Object.prototype`.  A bracket lookup `obj[key]` on the `AVAILABLE_MODELS`
literal walks the prototype chain, so each of these keys retrieves a truthy
non-string value (a built-in function, or the prototype object itself for
`__proto__`) even though the literal has only its four own keys. -/
def objectPrototypeKeys : List String :=
  ["constructor", "hasOwnProperty", "isPrototypeOf", "propertyIsEnumerable",
   "toLocaleString", "toString", "valueOf", "__defineGetter__", "__defineSetter__",
   "__lookupGetter__", "__lookupSetter__", "__proto__"]

/-- Result of the JS bracket lookup `AVAILABLE_MODELS[model]`
(`server.js` lines 105-110 and 337): one of the four own-key string values,
a truthy non-string value inherited from `Object.prototype`, or `undefined`
(falsy). -/
inductive ModelLookup where
  | modelName (value : String)
  | inherited (name : String)
  | undef
deriving DecidableEq

/-- The bracket lookup on the `AVAILABLE_MODELS` object literal: the four
own properties each map to themselves; any `Object.prototype` property name
hits the prototype chain and is truthy; everything else is `undefined`. -/
def AVAILABLE_MODELS (model : String) : ModelLookup :=
  if model = "o1" then ModelLookup.modelName "o1"
  else if model = "gpt-4o-mini" then ModelLookup.modelName "gpt-4o-mini"
  else if model = "o1-preview" then ModelLookup.modelName "o1-preview"
  else if model = "gpt-4o" then ModelLookup.modelName "gpt-4o"
  else if model ∈ objectPrototypeKeys then ModelLookup.inherited model
  else ModelLookup.undef

/-- `GET /api/models` (`server.js` lines 330-332): `Object.keys` lists the
own keys only, never the inherited ones. -/
def getModels : List String := ["o1", "gpt-4o-mini", "o1-preview", "gpt-4o"]

/-- A value the mutable `currentModel` variable can hold: initially (and
after any valid selection) a model-name string; after a selection that hits
an `Object.prototype` inherited property, that non-string value, recorded by
the key that retrieved it. -/
inductive ModelValue where
  | str (s : String)
  | inherited (name : String)
deriving DecidableEq

/-- Response of `POST /api/models/select`: `{success: true, currentModel}`
with the value just assigned (when that value is a non-string function,
JSON serialization drops the `currentModel` field, but the handler still
answers success), or a 400 with the static message. -/
inductive SelectResult where
  | success (currentModel : ModelValue)
  | invalid (error : String)
deriving DecidableEq

/-- HTTP status of a model-selection response. -/
def SelectResult.statusCode : SelectResult → Nat
  | .success _ => 200
  | .invalid _ => 400

/-- `POST /api/models/select` (`server.js` lines 335-343): when the bracket
lookup `AVAILABLE_MODELS[model]` is truthy — an own key or an inherited
`Object.prototype` property — assign it to `currentModel` and answer
`{success: true, currentModel}`; only when it is `undefined` answer 400 and
leave `currentModel` alone.  Returns the new value of the `currentModel`
variable together with the response. -/
def selectModel (currentModel : ModelValue) (model : String) :
    ModelValue × SelectResult :=
  match AVAILABLE_MODELS model with
  | ModelLookup.modelName value =>
    (ModelValue.str value, SelectResult.success (ModelValue.str value))
  | ModelLookup.inherited name =>
    (ModelValue.inherited name, SelectResult.success (ModelValue.inherited name))
  | ModelLookup.undef => (currentModel, SelectResult.invalid "Invalid model selection")

/-! ## File-variant handlers -/

/-- `GET /api/conversations` (file variant, `server.js` lines 117-125). -/
def getConversationsFile (s : FileStore) : List Conversation :=
  s.conversations

/-- `GET /api/conversations/:id/messages` (file variant, `server.js` lines
128-138): filter the messages document by conversation id and
`message_type === 'chat'`. -/
def getMessagesFile (s : FileStore) (id : String) : List Message :=
  s.messages.filter (fun msg => msg.conversation_id == id && msg.message_type == "chat")

/-- `GET /api/conversations/:id/debug` (file variant, `server.js` lines
141-151): filter the debug document by conversation id. -/
def getDebugMessagesFile (s : FileStore) (id : String) : List FileDebugMessage :=
  s.debugMessages.filter (fun msg => msg.conversation_id == id)

/-- `POST /api/conversations` (file variant, `server.js` lines 154-169):
push `{id: uuidv4(), title: req.body.title, created_at: now}` onto the
conversations document and answer with the new record.  The freshly drawn
uuid and the timestamp are arguments. -/
def postConversationsFile (s : FileStore) (id : String) (title : Option String)
    (now : String) : FileStore × Conversation :=
  let newConversation : Conversation := { id := id, title := title, created_at := now }
  ({ s with conversations := s.conversations ++ [newConversation] }, newConversation)

/-- `POST /api/chat` (file variant, `server.js` lines 171-304).  The outcome
of the external completion call is an argument; the handler builds the
payload, and on success appends the user message and then the assistant
message (each written to `messages.json` as it is pushed) and answers with
the first choice's content.  On error, or when `choices` is empty (reading
`choices[0].message` then throws a statusless TypeError), the store is left
as it was.  The returned triple is (new store, payload sent, response). -/
def postChatFile (s : FileStore) (currentModel : String) (req : ChatRequest)
    (outcome : Except ApiError Completion) (messageId aiMessageId now1 now2 : String) :
    FileStore × CompletionRequest × ChatResult :=
  let payload := chatRequestPayload currentModel req
  match outcome with
  | .error e => (s, payload, handleChatError e)
  | .ok completion =>
    match completion.choices with
    | [] => (s, payload, ChatResult.thrown)
    | choice :: _ =>
      let userMessage : Message :=
        { id := messageId, conversation_id := req.conversationId, role := "user",
          content := req.message, created_at := now1, message_type := "chat" }
      let assistantMessage : Message :=
        { id := aiMessageId, conversation_id := req.conversationId, role := "assistant",
          content := choice.message.content, created_at := now2, message_type := "chat" }
      ({ s with messages := s.messages ++ [userMessage] ++ [assistantMessage] },
       payload, ChatResult.success choice.message.content req.conversationId)

/-- `POST /api/chat/debug` (file variant, `server.js` lines 307-327). -/
def postChatDebugFile (s : FileStore) (conversationId content debugId now : String) :
    FileStore × Bool :=
  ({ s with debugMessages := s.debugMessages ++
      [{ id := debugId, conversation_id := conversationId, role := "system",
         content := content, created_at := now }] }, true)

/-- `DELETE /api/conversations/:id` (file variant, `server.js` lines
346-370): rewrite each of the three documents keeping only the entries whose
id (respectively `conversation_id`) differs, then answer
`{success: true}`. -/
def deleteConversationFile (s : FileStore) (id : String) : FileStore × Bool :=
  ({ conversations := s.conversations.filter (fun conv => conv.id != id)
     messages := s.messages.filter (fun msg => msg.conversation_id != id)
     debugMessages := s.debugMessages.filter (fun msg => msg.conversation_id != id) }, true)

/-! ## In-memory variant: data model -/

/-- A message of the in-memory variant (`server.js` lines 921-938): note the
camel-cased `conversationId` key, unlike the file variant. -/
structure MemMessage where
  id : String
  conversationId : String
  role : String
  content : String
  created_at : String
  message_type : String
deriving DecidableEq

/-- A conversation of the in-memory variant (`server.js` lines 835-838):
only `id` and `created_at` — this variant's create handler never reads
`req.body.title`. -/
structure MemConversation where
  id : String
  created_at : String
deriving DecidableEq

/-- A debug message of the in-memory variant (`server.js` lines 985-991). -/
structure MemDebugMessage where
  id : String
  conversationId : String
  role : String
  content : String
  created_at : String
deriving DecidableEq

/-- The in-memory variant's whole state: the three module-level arrays
`CONVERSATIONS`, `MESSAGES` and `DEBUG_MESSAGES` (`server.js` lines
748-750). -/
structure MemStore where
  CONVERSATIONS : List MemConversation
  MESSAGES : List MemMessage
  DEBUG_MESSAGES : List MemDebugMessage
deriving DecidableEq

/-- The arrays start empty. -/
def initialMemStore : MemStore :=
  { CONVERSATIONS := [], MESSAGES := [], DEBUG_MESSAGES := [] }

/-! ## In-memory variant: array primitives used by the delete handler -/

/-- JS `Array.prototype.findIndex`: index of the first element satisfying
`p`, or `-1` when there is none (`server.js` line 1022). -/
def findIndexJS (p : α → Bool) : List α → Int
  | [] => -1
  | x :: xs =>
    if p x then 0
    else
      let r := findIndexJS p xs
      if r = -1 then -1 else r + 1

/-- The index-collection loop of the delete handler (`server.js` lines
1028-1033): `forEach` over the array with its index, `unshift`ing (pushing to
the front) the index of every element whose `conversationId` matches, so the
collected list ends up in descending order.  `i` is the index of the first
element of the remaining list. -/
def collectDescAux (p : α → Bool) : Nat → List α → List Nat → List Nat
  | _, [], acc => acc
  | i, x :: xs, acc => collectDescAux p (i + 1) xs (if p x then i :: acc else acc)

/-- The collected (descending) index list, starting from index 0 and an empty
accumulator, as the source does. -/
def collectDesc (p : α → Bool) (xs : List α) : List Nat :=
  collectDescAux p 0 xs []

/-- The removal loop (`server.js` line 1034): for each collected index in
turn, `splice(index, 1)` the current array, i.e. remove the element at that
position. -/
def eraseIdxList (xs : List α) (indices : List Nat) : List α :=
  indices.foldl (fun ys i => ys.eraseIdx i) xs

/-! ## In-memory variant: handlers -/

/-- `GET /api/conversations` (in-memory variant, `server.js` lines
798-805). -/
def getConversationsMem (s : MemStore) : List MemConversation :=
  s.CONVERSATIONS

/-- `GET /api/conversations/:id/messages` (in-memory variant, `server.js`
lines 808-817): filter `MESSAGES` by `conversationId` only — this variant
has no `message_type` test. -/
def getMessagesMem (s : MemStore) (id : String) : List MemMessage :=
  s.MESSAGES.filter (fun msg => msg.conversationId == id)

/-- `GET /api/conversations/:id/debug` (in-memory variant, `server.js` lines
820-829). -/
def getDebugMessagesMem (s : MemStore) (id : String) : List MemDebugMessage :=
  s.DEBUG_MESSAGES.filter (fun msg => msg.conversationId == id)

/-- `POST /api/conversations` (in-memory variant, `server.js` lines
832-845): push `{id: uuidv4(), created_at: now}` — the request body's
`title` is ignored, so it is an unused argument here. -/
def postConversationsMem (s : MemStore) (conversationId : String) (now : String)
    (_title : Option String) : MemStore × MemConversation :=
  let newConversation : MemConversation := { id := conversationId, created_at := now }
  ({ s with CONVERSATIONS := s.CONVERSATIONS ++ [newConversation] }, newConversation)

/-- `POST /api/chat` (in-memory variant, `server.js` lines 847-977): same
logic as the file variant, pushing the two messages onto `MESSAGES`. -/
def postChatMem (s : MemStore) (currentModel : String) (req : ChatRequest)
    (outcome : Except ApiError Completion) (messageId aiMessageId now1 now2 : String) :
    MemStore × CompletionRequest × ChatResult :=
  let payload := chatRequestPayload currentModel req
  match outcome with
  | .error e => (s, payload, handleChatError e)
  | .ok completion =>
    match completion.choices with
    | [] => (s, payload, ChatResult.thrown)
    | choice :: _ =>
      let userMessage : MemMessage :=
        { id := messageId, conversationId := req.conversationId, role := "user",
          content := req.message, created_at := now1, message_type := "chat" }
      let assistantMessage : MemMessage :=
        { id := aiMessageId, conversationId := req.conversationId, role := "assistant",
          content := choice.message.content, created_at := now2, message_type := "chat" }
      ({ s with MESSAGES := s.MESSAGES ++ [userMessage] ++ [assistantMessage] },
       payload, ChatResult.success choice.message.content req.conversationId)

/-- `POST /api/chat/debug` (in-memory variant, `server.js` lines
980-998). -/
def postChatDebugMem (s : MemStore) (conversationId content debugId now : String) :
    MemStore × Bool :=
  ({ s with DEBUG_MESSAGES := s.DEBUG_MESSAGES ++
      [{ id := debugId, conversationId := conversationId, role := "system",
         content := content, created_at := now }] }, true)

/-- `DELETE /api/conversations/:id` (in-memory variant, `server.js` lines
1017-1050): `findIndex` + single `splice` on `CONVERSATIONS` (skipped when
the index is `-1`), then the collect-descending-indices / splice-each loops
on `MESSAGES` and on `DEBUG_MESSAGES`; always answers `{success: true}`. -/
def deleteConversationMem (s : MemStore) (id : String) : MemStore × Bool :=
  let conversationIndex := findIndexJS (fun conv => conv.id == id) s.CONVERSATIONS
  let conversations :=
    if conversationIndex ≠ -1 then s.CONVERSATIONS.eraseIdx conversationIndex.toNat
    else s.CONVERSATIONS
  let messages :=
    eraseIdxList s.MESSAGES (collectDesc (fun msg => msg.conversationId == id) s.MESSAGES)
  let debugMessages :=
    eraseIdxList s.DEBUG_MESSAGES
      (collectDesc (fun msg => msg.conversationId == id) s.DEBUG_MESSAGES)
  ({ CONVERSATIONS := conversations, MESSAGES := messages,
     DEBUG_MESSAGES := debugMessages }, true)

/-! ## Reachable states of the in-memory variant

Every mutation of the three arrays happens in one of the four handlers
modelled above; `MemReachable` closes the initial (empty) state under them.
The create step carries the guarantee that the uuid drawn for the new
conversation is fresh, which is what `uuidv4()` provides. -/

inductive MemReachable : MemStore → Prop where
  | init : MemReachable initialMemStore
  | createConv (s : MemStore) (cid now : String) (title : Option String)
      (hs : MemReachable s) (hfresh : ∀ c ∈ s.CONVERSATIONS, c.id ≠ cid) :
      MemReachable (postConversationsMem s cid now title).1
  | chat (s : MemStore) (currentModel : String) (req : ChatRequest)
      (outcome : Except ApiError Completion) (messageId aiMessageId now1 now2 : String)
      (hs : MemReachable s) :
      MemReachable (postChatMem s currentModel req outcome messageId aiMessageId now1 now2).1
  | debugMsg (s : MemStore) (conversationId content debugId now : String)
      (hs : MemReachable s) :
      MemReachable (postChatDebugMem s conversationId content debugId now).1
  | deleteConv (s : MemStore) (id : String) (hs : MemReachable s) :
      MemReachable (deleteConversationMem s id).1

/-! ## SQLite variant: the conversations table and its create handler -/

/-- A row of the SQLite `conversations` table (`server.js` lines 436-442):
`id TEXT PRIMARY KEY, title TEXT, created_at DATETIME DEFAULT
CURRENT_TIMESTAMP`. -/
structure SqliteConversationRow where
  id : String
  title : Option String
  created_at : String
deriving DecidableEq

/-- Response of the SQLite `POST /api/conversations` handler: on a
successful insert the handler answers `res.json({ id, title })` — no
`created_at` field (`server.js` line 531); on a database error (such as a
primary-key clash on `id`) it answers a 500 with the static message. -/
inductive SqliteCreateResult where
  | ok (id : String) (title : Option String)
  | dbError (error : String)
deriving DecidableEq

/-- `POST /api/conversations` (SQLite variant, `server.js` lines 521-533):
`INSERT INTO conversations (id, title) VALUES (?, ?)`.  The stored row's
`created_at` comes from the column default `CURRENT_TIMESTAMP`, passed here
as `now`; the response repeats only the id and title.  A duplicate id
violates the primary key, the callback receives the error and the handler
answers 500 leaving the table unchanged. -/
def postConversationsSqlite (rows : List SqliteConversationRow) (id : String)
    (title : Option String) (now : String) :
    List SqliteConversationRow × SqliteCreateResult :=
  if rows.any (fun row => row.id == id) then
    (rows, SqliteCreateResult.dbError "Failed to create conversation")
  else
    (rows ++ [{ id := id, title := title, created_at := now }],
     SqliteCreateResult.ok id title)

/-- `GET /api/conversations` (SQLite variant, `server.js` lines 475-484):
`SELECT * FROM conversations ORDER BY created_at DESC`. -/
def getConversationsSqlite (rows : List SqliteConversationRow) :
    List SqliteConversationRow :=
  rows.mergeSort (fun a b => decide (b.created_at ≤ a.created_at))

/-! ## Substring testing, used to state claims about message fragments -/

/-- Whether the first list is a leading segment of the second. -/
def listStartsWith [DecidableEq α] : List α → List α → Bool
  | [], _ => true
  | _ :: _, [] => false
  | a :: as, b :: bs => decide (a = b) && listStartsWith as bs

/-- Whether `pat` occurs as a contiguous segment of the second list. -/
def listHasInfix [DecidableEq α] (pat : List α) : List α → Bool
  | [] => listStartsWith pat []
  | x :: xs => listStartsWith pat (x :: xs) || listHasInfix pat xs

/-- Whether `pat` occurs as a contiguous substring of `s`. -/
def strContains (s pat : String) : Bool :=
  listHasInfix pat.data s.data

/-- Ascending-position specification of the collected index list: the delete
loop gathers the positions of the matching elements in descending order. -/
def descIndices (p : α → Bool) : List α → List Nat
  | [] => []
  | x :: xs => (descIndices p xs).map (· + 1) ++ (if p x then [0] else [])

/-- A concrete reachable in-memory state: the empty store after one
successful chat turn on conversation "c1". -/
def sampleMemStore : MemStore :=
  (postChatMem initialMemStore "gpt-4o" ⟨"hi", "c1", none⟩
    (Except.ok ⟨[⟨⟨"assistant", "hello"⟩⟩]⟩) "m1" "m2" "t1" "t2").1

end AIChat

namespace AIChat

/-! ## Lemmas about the splice-based delete loop -/

theorem comp_add_one_add (i : Nat) :
    (fun n : Nat => n + 1 + i) = (fun n : Nat => n + (i + 1)) := by
  funext n; omega

theorem collectDescAux_eq (p : α → Bool) (xs : List α) :
    ∀ (i : Nat) (acc : List Nat),
      collectDescAux p i xs acc = (descIndices p xs).map (· + i) ++ acc := by
  induction xs with
  | nil => intro i acc; simp [collectDescAux, descIndices]
  | cons x xs ih =>
    intro i acc
    simp only [collectDescAux, descIndices]
    cases hp : p x
    · rw [if_neg Bool.false_ne_true, if_neg Bool.false_ne_true, List.append_nil,
        ih (i + 1) acc, List.map_map]
      simp only [Function.comp_def]
      rw [comp_add_one_add]
    · rw [if_pos rfl, if_pos rfl, ih (i + 1) (i :: acc), List.map_append, List.map_map]
      simp only [Function.comp_def, List.map_cons, List.map_nil]
      rw [comp_add_one_add]
      simp

theorem collectDesc_eq_descIndices (p : α → Bool) (xs : List α) :
    collectDesc p xs = descIndices p xs := by
  unfold collectDesc
  rw [collectDescAux_eq]
  simp

theorem eraseIdxList_append (xs : List α) (is js : List Nat) :
    eraseIdxList xs (is ++ js) = eraseIdxList (eraseIdxList xs is) js :=
  List.foldl_append _ _ _ _

theorem eraseIdxList_map_succ (is : List Nat) :
    ∀ (x : α) (xs : List α),
      eraseIdxList (x :: xs) (is.map (· + 1)) = x :: eraseIdxList xs is := by
  induction is with
  | nil => intro x xs; rfl
  | cons i is ih =>
    intro x xs
    show eraseIdxList ((x :: xs).eraseIdx (i + 1)) (is.map (· + 1))
      = x :: eraseIdxList (xs.eraseIdx i) is
    exact ih x (xs.eraseIdx i)

theorem eraseIdxList_descIndices (p : α → Bool) (xs : List α) :
    eraseIdxList xs (descIndices p xs) = xs.filter (fun x => !p x) := by
  induction xs with
  | nil => rfl
  | cons x xs ih =>
    cases hp : p x
    · simp only [descIndices, hp, if_neg Bool.false_ne_true, List.append_nil]
      rw [eraseIdxList_map_succ, ih]
      simp [List.filter_cons, hp]
    · simp only [descIndices, hp, if_pos rfl]
      rw [eraseIdxList_append, eraseIdxList_map_succ, ih]
      show (x :: xs.filter (fun x => !p x)).eraseIdx 0 = (x :: xs).filter (fun x => !p x)
      simp [List.filter_cons, hp]

/-- The splice loop of the in-memory delete handler is extensionally a
filter dropping the matching elements. -/
theorem spliceLoop_eq_filter (p : α → Bool) (xs : List α) :
    eraseIdxList xs (collectDesc p xs) = xs.filter (fun x => !p x) := by
  rw [collectDesc_eq_descIndices, eraseIdxList_descIndices]

/-! ## Lemmas about findIndex + single splice -/

theorem findIndexJS_neg_one_or_nonneg (p : α → Bool) (xs : List α) :
    findIndexJS p xs = -1 ∨ 0 ≤ findIndexJS p xs := by
  induction xs with
  | nil => left; rfl
  | cons x xs ih =>
    cases hp : p x
    · simp only [findIndexJS, hp, Bool.false_eq_true, if_neg]
      by_cases hr : findIndexJS p xs = -1
      · left; simp [hr]
      · right
        rcases ih with h | h
        · exact absurd h hr
        · simp only [if_neg hr]; omega
    · right; simp [findIndexJS, hp]

/-- When at most one element matches, the findIndex-then-splice step of the
delete handler removes exactly the matching elements. -/
theorem findIndexJS_erase_eq_filter (p : α → Bool) (xs : List α)
    (h : xs.countP p ≤ 1) :
    (if findIndexJS p xs ≠ -1 then xs.eraseIdx (findIndexJS p xs).toNat else xs)
      = xs.filter (fun x => !p x) := by
  induction xs with
  | nil => simp [findIndexJS]
  | cons x xs ih =>
    cases hp : p x
    · have hcount : xs.countP p ≤ 1 := by
        rw [List.countP_cons, hp] at h
        simpa using h
      have hxs := ih hcount
      by_cases hr : findIndexJS p xs = -1
      · rw [if_neg (by simp [hr])] at hxs
        simp [findIndexJS, hp, hr, List.filter_cons, ← hxs]
      · have hnonneg : 0 ≤ findIndexJS p xs := by
          rcases findIndexJS_neg_one_or_nonneg p xs with h0 | h0
          · exact absurd h0 hr
          · exact h0
        rw [if_pos hr] at hxs
        have htn : (findIndexJS p xs + 1).toNat = (findIndexJS p xs).toNat + 1 := by omega
        have hne : findIndexJS p xs + 1 ≠ -1 := by omega
        simp only [findIndexJS, hp, Bool.false_eq_true, if_false, if_neg hr]
        rw [if_pos (by simpa using hne), htn]
        show x :: xs.eraseIdx (findIndexJS p xs).toNat = (x :: xs).filter (fun a => !p a)
        rw [hxs, List.filter_cons, hp]
        simp
    · rw [List.countP_cons, hp] at h
      simp at h
      have hfilter : xs.filter (fun a => !p a) = xs := by
        rw [List.filter_eq_self]
        intro a ha
        simp [h a ha]
      simp [findIndexJS, hp, List.filter_cons, hfilter]

/-! ## Invariant: the in-memory MESSAGES array holds only chat messages

The only handler that pushes onto `MESSAGES` is the chat handler, and it
always sets `message_type: 'chat'`; the delete handler only removes
elements. -/

theorem memReachable_messages_chat {s : MemStore} (h : MemReachable s) :
    ∀ msg ∈ s.MESSAGES, msg.message_type = "chat" := by
  induction h with
  | init => intro msg hm; simp [initialMemStore] at hm
  | createConv s cid now title hs hfresh ih =>
    intro msg hm
    exact ih msg hm
  | chat s currentModel req outcome messageId aiMessageId now1 now2 hs ih =>
    intro msg hm
    rcases outcome with e | completion
    · exact ih msg hm
    · rcases completion with ⟨choices⟩
      rcases choices with _ | ⟨choice, rest⟩
      · exact ih msg hm
      · simp only [postChatMem, List.append_assoc, List.mem_append] at hm
        rcases hm with hm | hm
        · exact ih msg hm
        · simp at hm
          rcases hm with rfl | rfl <;> rfl
  | debugMsg s conversationId content debugId now hs ih =>
    intro msg hm
    exact ih msg hm
  | deleteConv s id hs ih =>
    intro msg hm
    have hmsgs : (deleteConversationMem s id).1.MESSAGES
        = s.MESSAGES.filter (fun m => !(m.conversationId == id)) := by
      simp only [deleteConversationMem]
      exact spliceLoop_eq_filter _ _
    rw [hmsgs] at hm
    exact ih msg (List.mem_filter.mp hm).1

/-! ## Claim theorems -/

/-- C10: in the in-memory delete handler, collecting the indices of the
matching messages in descending order via unshift and then splicing each
index out leaves the MESSAGES array (and likewise DEBUG_MESSAGES) equal to
simply filtering out every element whose conversationId equals the deleted
id, preserving the relative order of all remaining elements. -/
theorem splice_loops_equal_filter (s : MemStore) (id : String) :
    (deleteConversationMem s id).1.MESSAGES
      = s.MESSAGES.filter (fun msg => !(msg.conversationId == id)) ∧
    (deleteConversationMem s id).1.DEBUG_MESSAGES
      = s.DEBUG_MESSAGES.filter (fun msg => !(msg.conversationId == id)) := by
  exact ⟨spliceLoop_eq_filter _ _, spliceLoop_eq_filter _ _⟩

/-- C4 counterexample: the string "constructor" is outside the static
four-identifier set, yet the bracket lookup hits the truthy
`Object.prototype.constructor`, so the handler takes the success branch and
overwrites the current-model variable with that non-string value — neither
a 400 nor an unchanged variable, refuting the claim's universal
reject-unknown-strings half. -/
theorem model_select_prototype_counterexample :
    ("constructor" ∉ getModels) ∧
    selectModel (ModelValue.str "gpt-4o") "constructor"
      = (ModelValue.inherited "constructor",
         SelectResult.success (ModelValue.inherited "constructor")) ∧
    (selectModel (ModelValue.str "gpt-4o") "constructor").1
      ≠ ModelValue.str "gpt-4o" ∧
    (selectModel (ModelValue.str "gpt-4o") "constructor").2
      ≠ SelectResult.invalid "Invalid model selection" := by
  exact ⟨by decide, rfl, by decide, by decide⟩

/-- C4 (amended): selecting one of the four supported identifiers sets the
current-model variable to it — so a subsequent chat call sends it as the
payload's model — and answers success carrying it; selecting a string that
names an `Object.prototype` inherited property also takes the success branch
and overwrites the variable with that non-string inherited value; only for
every other string does selection leave the variable unchanged and yield a
400 response. -/
theorem model_select_spec (currentModel : ModelValue) (m : String) :
    (m ∈ getModels →
      selectModel currentModel m
        = (ModelValue.str m, SelectResult.success (ModelValue.str m)) ∧
      ∀ req : ChatRequest, (chatRequestPayload m req).model = m) ∧
    (m ∈ objectPrototypeKeys →
      selectModel currentModel m
        = (ModelValue.inherited m, SelectResult.success (ModelValue.inherited m))) ∧
    (m ∉ getModels → m ∉ objectPrototypeKeys →
      selectModel currentModel m
        = (currentModel, SelectResult.invalid "Invalid model selection") ∧
      ((selectModel currentModel m).2).statusCode = 400) := by
  refine ⟨?_, ?_, ?_⟩
  · intro hm
    simp only [getModels, List.mem_cons, List.not_mem_nil, or_false] at hm
    rcases hm with rfl | rfl | rfl | rfl <;>
      exact ⟨rfl, fun _ => rfl⟩
  · intro hk
    simp only [objectPrototypeKeys, List.mem_cons, List.not_mem_nil, or_false] at hk
    rcases hk with rfl | rfl | rfl | rfl | rfl | rfl | rfl | rfl | rfl | rfl | rfl | rfl <;>
      rfl
  · intro hm hk
    simp only [getModels, List.mem_cons, List.not_mem_nil, or_false] at hm
    push_neg at hm
    obtain ⟨h1, h2, h3, h4⟩ := hm
    simp [selectModel, AVAILABLE_MODELS, h1, h2, h3, h4, hk, SelectResult.statusCode]

/-- Witness for the model-selection theorem: a supported identifier, an
inherited `Object.prototype` name, and a plain unknown string. -/
theorem model_select_spec_witness :
    ("o1" ∈ getModels ∧
      selectModel (ModelValue.str "gpt-4o") "o1"
        = (ModelValue.str "o1", SelectResult.success (ModelValue.str "o1"))) ∧
    ("toString" ∈ objectPrototypeKeys ∧
      selectModel (ModelValue.str "gpt-4o") "toString"
        = (ModelValue.inherited "toString",
           SelectResult.success (ModelValue.inherited "toString"))) ∧
    ("o3" ∉ getModels ∧ "o3" ∉ objectPrototypeKeys ∧
      selectModel (ModelValue.str "gpt-4o") "o3"
        = (ModelValue.str "gpt-4o", SelectResult.invalid "Invalid model selection")) := by
  refine ⟨⟨by decide, ?_⟩, ⟨by decide, ?_⟩, ⟨by decide, by decide, ?_⟩⟩
  · exact ((model_select_spec (ModelValue.str "gpt-4o") "o1").1 (by decide)).1
  · exact (model_select_spec (ModelValue.str "gpt-4o") "toString").2.1 (by decide)
  · exact ((model_select_spec (ModelValue.str "gpt-4o") "o3").2.2 (by decide) (by decide)).1

/-- C5: with N ≥ 1 attached images the user turn of the prompt is
multi-part — exactly one text segment (the request text, or the default
prompt when it is empty) followed by one image segment per attachment, in
attachment order, N + 1 segments in total; with no attachments the user turn
is the plain request text. -/
theorem prompt_building_spec :
    (∀ (message : String) (fs : List FileAttachment), fs ≠ [] →
      buildMessages message (some fs)
        = [systemMessage,
           { role := "user",
             content := PromptContent.parts
               (PromptPart.textPart
                  (if message = "" then "What do you see in these images?" else message) ::
                fs.map (fun file => PromptPart.imageUrlPart file.data)) }] ∧
      (PromptPart.textPart
          (if message = "" then "What do you see in these images?" else message) ::
        fs.map (fun file => PromptPart.imageUrlPart file.data)).length = fs.length + 1) ∧
    (∀ message : String,
      buildMessages message none
        = [systemMessage, { role := "user", content := PromptContent.str message }] ∧
      buildMessages message (some [])
        = [systemMessage, { role := "user", content := PromptContent.str message }]) := by
  constructor
  · intro message fs hfs
    have hlen : fs.length > 0 := List.length_pos.mpr hfs
    exact ⟨by simp [buildMessages, hlen], by simp⟩
  · intro message
    exact ⟨rfl, rfl⟩

/-- Witness for the prompt-building theorem: one attachment, and the
zero-attachment case. -/
theorem prompt_building_spec_witness :
    (([⟨"img1"⟩] : List FileAttachment) ≠ [] ∧
      buildMessages "look" (some [⟨"img1"⟩])
        = [systemMessage,
           { role := "user",
             content := PromptContent.parts
               [PromptPart.textPart "look", PromptPart.imageUrlPart "img1"] }]) ∧
    buildMessages "hello" none
      = [systemMessage, { role := "user", content := PromptContent.str "hello" }] := by
  refine ⟨⟨by decide, ?_⟩, (prompt_building_spec.2 "hello").1⟩
  have h := (prompt_building_spec.1 "look" [⟨"img1"⟩] (by decide)).1
  rw [if_neg (by decide)] at h
  simpa using h

/-- C9: a provider 429 whose retry-after header is missing or does not parse
as an integer defaults the wait to 0 seconds: the handler answers 429 with
retryAfter 0 and the zero-hours message naming 0 minutes, and the store is
untouched. -/
theorem rate_limit_default_spec (s : FileStore) (currentModel : String)
    (req : ChatRequest) (e : ApiError) (messageId aiMessageId now1 now2 : String)
    (h429 : e.status = some 429)
    (hna : e.retryAfter = none ∨ parseIntJS e.retryAfter = none) :
    (postChatFile s currentModel req (Except.error e) messageId aiMessageId now1 now2).1
      = s ∧
    (postChatFile s currentModel req (Except.error e) messageId aiMessageId now1 now2).2.2
      = ChatResult.rateLimited
          "Rate limit exceeded. Please wait approximately 0 minutes before trying again."
          0 "RATE_LIMIT_EXCEEDED" := by
  have hparse : parseIntJS e.retryAfter = none := by
    rcases hna with h | h
    · rw [h]; rfl
    · exact h
  refine ⟨rfl, ?_⟩
  show handleChatError e = _
  unfold handleChatError
  rw [h429, if_pos rfl, hparse]
  decide

/-- Witness for the default rate-limit theorem: an unparseable header. -/
theorem rate_limit_default_spec_witness :
    ((⟨some 429, some "soon"⟩ : ApiError).status = some 429 ∧
      parseIntJS (some "soon") = none) ∧
    (postChatFile ⟨[], [], []⟩ "gpt-4o" ⟨"hi", "c1", none⟩
        (Except.error ⟨some 429, some "soon"⟩) "m1" "m2" "t1" "t2").2.2
      = ChatResult.rateLimited
          "Rate limit exceeded. Please wait approximately 0 minutes before trying again."
          0 "RATE_LIMIT_EXCEEDED" := by
  refine ⟨⟨rfl, by decide⟩, ?_⟩
  exact (rate_limit_default_spec ⟨[], [], []⟩ "gpt-4o" ⟨"hi", "c1", none⟩
    ⟨some 429, some "soon"⟩ "m1" "m2" "t1" "t2" rfl (Or.inr (by decide))).2

/-- C3 counterexample: with a retry-after header of 3661 seconds the handler
rounds the wait up to 62 whole minutes and reports "1 hours and 2 minutes";
the message does not contain the fragment "1 hours and 1 minutes" that the
spec example predicts. -/
theorem rate_limit_3661_counterexample :
    (postChatFile ⟨[], [], []⟩ "gpt-4o" ⟨"hi", "c1", none⟩
        (Except.error ⟨some 429, some "3661"⟩) "m1" "m2" "t1" "t2").2.2
      = ChatResult.rateLimited
          "Rate limit exceeded. Please wait approximately 1 hours and 2 minutes before trying again."
          3661 "RATE_LIMIT_EXCEEDED" ∧
    strContains (rateLimitWaitMessage 3661) "1 hours and 1 minutes" = false := by
  exact ⟨by decide, by decide⟩

/-- C3 (amended): a provider 429 with a parseable retry-after of S seconds
yields HTTP 429 with code RATE_LIMIT_EXCEEDED, retryAfter equal to S, and
the wait message computed from S by rounding the wait up to whole minutes
before splitting into hours and minutes — so S = 3661 yields the fragment
"1 hours and 2 minutes"; the store is left unchanged. -/
theorem rate_limit_response_spec (s : FileStore) (currentModel : String)
    (req : ChatRequest) (e : ApiError) (hdr : String) (S : Int)
    (messageId aiMessageId now1 now2 : String)
    (h429 : e.status = some 429) (hhdr : e.retryAfter = some hdr)
    (hparse : parseIntJS (some hdr) = some S) :
    (postChatFile s currentModel req (Except.error e) messageId aiMessageId now1 now2).1
      = s ∧
    (postChatFile s currentModel req (Except.error e) messageId aiMessageId now1 now2).2.2
      = ChatResult.rateLimited (rateLimitWaitMessage S) S "RATE_LIMIT_EXCEEDED" ∧
    (ChatResult.rateLimited (rateLimitWaitMessage S) S "RATE_LIMIT_EXCEEDED").statusCode
      = some 429 ∧
    strContains (rateLimitWaitMessage 3661) "1 hours and 2 minutes" = true := by
  refine ⟨rfl, ?_, rfl, by decide⟩
  show handleChatError e = _
  unfold handleChatError
  rw [h429, if_pos rfl, hhdr, hparse]
  rfl

/-- Witness for the amended rate-limit theorem at the 3661-second header. -/
theorem rate_limit_response_spec_witness :
    ((⟨some 429, some "3661"⟩ : ApiError).status = some 429 ∧
      (⟨some 429, some "3661"⟩ : ApiError).retryAfter = some "3661" ∧
      parseIntJS (some "3661") = some 3661) ∧
    (postChatFile ⟨[], [], []⟩ "gpt-4o" ⟨"hi", "c1", none⟩
        (Except.error ⟨some 429, some "3661"⟩) "m1" "m2" "t1" "t2").2.2
      = ChatResult.rateLimited (rateLimitWaitMessage 3661) 3661 "RATE_LIMIT_EXCEEDED" := by
  refine ⟨⟨rfl, rfl, by decide⟩, ?_⟩
  exact (rate_limit_response_spec ⟨[], [], []⟩ "gpt-4o" ⟨"hi", "c1", none⟩
    ⟨some 429, some "3661"⟩ "3661" 3661 "m1" "m2" "t1" "t2" rfl rfl (by decide)).2.1

/-- C7: every chat turn calls the completion API with exactly two prompt
messages — the fixed static system instruction first and the single user
turn second — with max_tokens fixed at 1000 and the currently selected model
identifier; on a successful completion the handler returns the first
choice's message content verbatim. -/
theorem completion_request_spec (s : FileStore) (currentModel : String)
    (req : ChatRequest) (outcome : Except ApiError Completion)
    (messageId aiMessageId now1 now2 : String) :
    (postChatFile s currentModel req outcome messageId aiMessageId now1 now2).2.1
      = chatRequestPayload currentModel req ∧
    (chatRequestPayload currentModel req).model = currentModel ∧
    (chatRequestPayload currentModel req).max_tokens = 1000 ∧
    (chatRequestPayload currentModel req).messages.length = 2 ∧
    (chatRequestPayload currentModel req).messages.head? = some systemMessage ∧
    ((chatRequestPayload currentModel req).messages[1]?).map PromptMessage.role
      = some "user" ∧
    (∀ (completion : Completion) (choice : Choice) (rest : List Choice),
      completion.choices = choice :: rest →
      (postChatFile s currentModel req (Except.ok completion) messageId aiMessageId
          now1 now2).2.2
        = ChatResult.success choice.message.content req.conversationId) := by
  obtain ⟨message, conversationId, files⟩ := req
  have hshape : ∃ u : PromptMessage,
      (chatRequestPayload currentModel ⟨message, conversationId, files⟩).messages
        = [systemMessage, u] ∧ u.role = "user" := by
    rcases files with _ | fs
    · exact ⟨⟨"user", PromptContent.str message⟩, rfl, rfl⟩
    · by_cases hl : fs.length > 0
      · refine ⟨⟨"user", PromptContent.parts
            (PromptPart.textPart
               (if message = "" then "What do you see in these images?" else message) ::
             fs.map (fun file => PromptPart.imageUrlPart file.data))⟩, ?_, rfl⟩
        simp [chatRequestPayload, buildMessages, hl]
      · refine ⟨⟨"user", PromptContent.str message⟩, ?_, rfl⟩
        simp [chatRequestPayload, buildMessages, hl]
  obtain ⟨u, hu, hurole⟩ := hshape
  refine ⟨?_, rfl, rfl, ?_, ?_, ?_, ?_⟩
  · rcases outcome with e | ⟨choices⟩
    · rfl
    · rcases choices with _ | ⟨choice, rest⟩ <;> rfl
  · rw [hu]; rfl
  · rw [hu]; rfl
  · rw [hu]; simp [hurole]
  · intro completion choice rest hch
    rcases completion with ⟨choices⟩
    simp only at hch
    subst hch
    rfl

/-- Witness for the completion-request theorem: a concrete successful call
whose reply is echoed verbatim. -/
theorem completion_request_spec_witness :
    ((⟨[⟨⟨"assistant", "hello"⟩⟩]⟩ : Completion).choices
      = (⟨⟨"assistant", "hello"⟩⟩ : Choice) :: []) ∧
    (postChatFile ⟨[], [], []⟩ "gpt-4o" ⟨"hi", "c1", none⟩
        (Except.ok ⟨[⟨⟨"assistant", "hello"⟩⟩]⟩) "m1" "m2" "t1" "t2").2.2
      = ChatResult.success "hello" "c1" := by
  refine ⟨rfl, ?_⟩
  exact (completion_request_spec ⟨[], [], []⟩ "gpt-4o" ⟨"hi", "c1", none⟩
    (Except.ok ⟨[⟨⟨"assistant", "hello"⟩⟩]⟩) "m1" "m2" "t1" "t2").2.2.2.2.2.2
    ⟨[⟨⟨"assistant", "hello"⟩⟩]⟩ ⟨⟨"assistant", "hello"⟩⟩ [] rfl

/-- C1: when the model-completion call fails the chat handler persists
nothing — the store is returned unchanged (file and in-memory variants
alike); when it succeeds, exactly the two new messages are appended for the
given conversation id — first role user carrying the request text, then
role assistant carrying the reply — and listing that conversation's messages
afterwards returns the previous listing followed by those two, in that
order. -/
theorem chat_turn_persistence :
    (∀ (s : FileStore) (currentModel : String) (req : ChatRequest) (e : ApiError)
        (messageId aiMessageId now1 now2 : String),
      (postChatFile s currentModel req (Except.error e) messageId aiMessageId now1 now2).1
        = s) ∧
    (∀ (s : MemStore) (currentModel : String) (req : ChatRequest) (e : ApiError)
        (messageId aiMessageId now1 now2 : String),
      (postChatMem s currentModel req (Except.error e) messageId aiMessageId now1 now2).1
        = s) ∧
    (∀ (s : FileStore) (currentModel : String) (req : ChatRequest)
        (completion : Completion) (choice : Choice) (rest : List Choice)
        (messageId aiMessageId now1 now2 : String),
      completion.choices = choice :: rest →
      (postChatFile s currentModel req (Except.ok completion) messageId aiMessageId
          now1 now2).1.messages
        = s.messages ++
          [{ id := messageId, conversation_id := req.conversationId, role := "user",
             content := req.message, created_at := now1, message_type := "chat" },
           { id := aiMessageId, conversation_id := req.conversationId, role := "assistant",
             content := choice.message.content, created_at := now2, message_type := "chat" }] ∧
      (postChatFile s currentModel req (Except.ok completion) messageId aiMessageId
          now1 now2).1.conversations = s.conversations ∧
      getMessagesFile (postChatFile s currentModel req (Except.ok completion) messageId
          aiMessageId now1 now2).1 req.conversationId
        = getMessagesFile s req.conversationId ++
          [{ id := messageId, conversation_id := req.conversationId, role := "user",
             content := req.message, created_at := now1, message_type := "chat" },
           { id := aiMessageId, conversation_id := req.conversationId, role := "assistant",
             content := choice.message.content, created_at := now2, message_type := "chat" }]) ∧
    (∀ (s : MemStore) (currentModel : String) (req : ChatRequest)
        (completion : Completion) (choice : Choice) (rest : List Choice)
        (messageId aiMessageId now1 now2 : String),
      completion.choices = choice :: rest →
      (postChatMem s currentModel req (Except.ok completion) messageId aiMessageId
          now1 now2).1.MESSAGES
        = s.MESSAGES ++
          [{ id := messageId, conversationId := req.conversationId, role := "user",
             content := req.message, created_at := now1, message_type := "chat" },
           { id := aiMessageId, conversationId := req.conversationId, role := "assistant",
             content := choice.message.content, created_at := now2, message_type := "chat" }] ∧
      (postChatMem s currentModel req (Except.ok completion) messageId aiMessageId
          now1 now2).1.CONVERSATIONS = s.CONVERSATIONS ∧
      getMessagesMem (postChatMem s currentModel req (Except.ok completion) messageId
          aiMessageId now1 now2).1 req.conversationId
        = getMessagesMem s req.conversationId ++
          [{ id := messageId, conversationId := req.conversationId, role := "user",
             content := req.message, created_at := now1, message_type := "chat" },
           { id := aiMessageId, conversationId := req.conversationId, role := "assistant",
             content := choice.message.content, created_at := now2, message_type := "chat" }]) := by
  refine ⟨fun _ _ _ _ _ _ _ _ => rfl, fun _ _ _ _ _ _ _ _ => rfl, ?_, ?_⟩
  · intro s currentModel req completion choice rest messageId aiMessageId now1 now2 hch
    rcases completion with ⟨choices⟩
    simp only at hch
    subst hch
    refine ⟨List.append_assoc _ _ _, rfl, ?_⟩
    show (s.messages ++ _ ++ _).filter _ = _
    rw [List.filter_append, List.filter_append]
    simp [getMessagesFile, List.filter_cons]
  · intro s currentModel req completion choice rest messageId aiMessageId now1 now2 hch
    rcases completion with ⟨choices⟩
    simp only at hch
    subst hch
    refine ⟨List.append_assoc _ _ _, rfl, ?_⟩
    show (s.MESSAGES ++ _ ++ _).filter _ = _
    rw [List.filter_append, List.filter_append]
    simp [getMessagesMem, List.filter_cons]

/-- Witness for the chat-turn persistence theorem: a concrete success and a
concrete failure in the in-memory variant, starting from the empty store. -/
theorem chat_turn_persistence_witness :
    ((⟨[⟨⟨"assistant", "hello"⟩⟩]⟩ : Completion).choices
      = (⟨⟨"assistant", "hello"⟩⟩ : Choice) :: []) ∧
    (postChatMem initialMemStore "gpt-4o" ⟨"hi", "c1", none⟩
        (Except.ok ⟨[⟨⟨"assistant", "hello"⟩⟩]⟩) "m1" "m2" "t1" "t2").1.MESSAGES
      = [⟨"m1", "c1", "user", "hi", "t1", "chat"⟩,
         ⟨"m2", "c1", "assistant", "hello", "t2", "chat"⟩] ∧
    (postChatMem initialMemStore "gpt-4o" ⟨"hi", "c1", none⟩
        (Except.error ⟨some 500, none⟩) "m1" "m2" "t1" "t2").1 = initialMemStore := by
  refine ⟨rfl, ?_, ?_⟩
  · have h := (chat_turn_persistence.2.2.2 initialMemStore "gpt-4o" ⟨"hi", "c1", none⟩
      ⟨[⟨⟨"assistant", "hello"⟩⟩]⟩ ⟨⟨"assistant", "hello"⟩⟩ [] "m1" "m2" "t1" "t2" rfl).1
    simpa using h
  · exact chat_turn_persistence.2.1 initialMemStore "gpt-4o" ⟨"hi", "c1", none⟩
      ⟨some 500, none⟩ "m1" "m2" "t1" "t2"

/-- When the images of a list under `f` are pairwise distinct, at most one
element maps to any given key. -/
theorem countP_key_le_one {α β : Type _} [DecidableEq β] (f : α → β) (k : β) :
    ∀ l : List α, (l.map f).Nodup → l.countP (fun a => f a == k) ≤ 1 := by
  intro l
  induction l with
  | nil => intro _; simp
  | cons a l ih =>
    intro h
    rw [List.map_cons, List.nodup_cons] at h
    rw [List.countP_cons]
    by_cases hk : f a = k
    · have hzero : l.countP (fun a => f a == k) = 0 := by
        rw [List.countP_eq_zero]
        intro b hb
        simp only [beq_iff_eq]
        intro hbk
        exact h.1 (by rw [hk, ← hbk]; exact List.mem_map_of_mem f hb)
      simp [hzero, beq_iff_eq, hk]
    · have hle := ih h.2
      simp only [beq_iff_eq, hk, if_false]
      simpa using hle

/-- C2: deleting a conversation answers success unconditionally (also for a
nonexistent id), removes every conversation with that id from subsequent
listings, and removes exactly the chat and debug messages whose conversation
id equals it, keeping all other entries in order.  In the in-memory variant
the single findIndex/splice on CONVERSATIONS removes the conversation
provided ids are unique (as the freshly drawn uuids guarantee). -/
theorem delete_conversation_cascade :
    (∀ (s : FileStore) (id : String),
      (deleteConversationFile s id).2 = true ∧
      (deleteConversationFile s id).1.conversations
        = s.conversations.filter (fun conv => conv.id != id) ∧
      (∀ c ∈ getConversationsFile (deleteConversationFile s id).1, c.id ≠ id) ∧
      getMessagesFile (deleteConversationFile s id).1 id = [] ∧
      getDebugMessagesFile (deleteConversationFile s id).1 id = [] ∧
      (deleteConversationFile s id).1.messages
        = s.messages.filter (fun msg => msg.conversation_id != id) ∧
      (deleteConversationFile s id).1.debugMessages
        = s.debugMessages.filter (fun msg => msg.conversation_id != id)) ∧
    (∀ (s : MemStore) (id : String),
      (deleteConversationMem s id).2 = true ∧
      (deleteConversationMem s id).1.MESSAGES
        = s.MESSAGES.filter (fun msg => !(msg.conversationId == id)) ∧
      (deleteConversationMem s id).1.DEBUG_MESSAGES
        = s.DEBUG_MESSAGES.filter (fun msg => !(msg.conversationId == id)) ∧
      getMessagesMem (deleteConversationMem s id).1 id = [] ∧
      getDebugMessagesMem (deleteConversationMem s id).1 id = [] ∧
      ((s.CONVERSATIONS.map MemConversation.id).Nodup →
        (deleteConversationMem s id).1.CONVERSATIONS
          = s.CONVERSATIONS.filter (fun conv => !(conv.id == id)) ∧
        ∀ c ∈ getConversationsMem (deleteConversationMem s id).1, c.id ≠ id)) := by
  constructor
  · intro s id
    refine ⟨rfl, rfl, ?_, ?_, ?_, rfl, rfl⟩
    · intro c hc
      have h2 := (List.mem_filter.mp hc).2
      simpa using h2
    · apply List.filter_eq_nil_iff.mpr
      intro m hm
      have h2 := (List.mem_filter.mp hm).2
      rw [bne_iff_ne] at h2
      simp [h2]
    · apply List.filter_eq_nil_iff.mpr
      intro m hm
      have h2 := (List.mem_filter.mp hm).2
      rw [bne_iff_ne] at h2
      simp [h2]
  · intro s id
    have hM : (deleteConversationMem s id).1.MESSAGES
        = s.MESSAGES.filter (fun msg => !(msg.conversationId == id)) :=
      spliceLoop_eq_filter _ _
    have hD : (deleteConversationMem s id).1.DEBUG_MESSAGES
        = s.DEBUG_MESSAGES.filter (fun msg => !(msg.conversationId == id)) :=
      spliceLoop_eq_filter _ _
    refine ⟨rfl, hM, hD, ?_, ?_, ?_⟩
    · show (deleteConversationMem s id).1.MESSAGES.filter _ = []
      rw [hM]
      apply List.filter_eq_nil_iff.mpr
      intro m hm
      have h2 := (List.mem_filter.mp hm).2
      simp at h2
      simp [h2]
    · show (deleteConversationMem s id).1.DEBUG_MESSAGES.filter _ = []
      rw [hD]
      apply List.filter_eq_nil_iff.mpr
      intro m hm
      have h2 := (List.mem_filter.mp hm).2
      simp at h2
      simp [h2]
    · intro hnodup
      have hcount := countP_key_le_one MemConversation.id id s.CONVERSATIONS hnodup
      have hconv : (deleteConversationMem s id).1.CONVERSATIONS
          = s.CONVERSATIONS.filter (fun conv => !(conv.id == id)) :=
        findIndexJS_erase_eq_filter _ _ hcount
      refine ⟨hconv, ?_⟩
      intro c hc
      rw [show getConversationsMem (deleteConversationMem s id).1
            = (deleteConversationMem s id).1.CONVERSATIONS from rfl, hconv] at hc
      have h2 := (List.mem_filter.mp hc).2
      simpa using h2

/-- Witness for the delete-cascade theorem: a concrete two-conversation
store, deleting one of them, and deleting a nonexistent id. -/
theorem delete_conversation_cascade_witness :
    (([⟨"c1", "t0"⟩, ⟨"c2", "t1"⟩] : List MemConversation).map MemConversation.id).Nodup ∧
    (deleteConversationMem
        ⟨[⟨"c1", "t0"⟩, ⟨"c2", "t1"⟩],
         [⟨"m1", "c1", "user", "hi", "t2", "chat"⟩,
          ⟨"m2", "c2", "user", "yo", "t3", "chat"⟩],
         [⟨"d1", "c1", "system", "dbg", "t4"⟩]⟩ "c1").1.CONVERSATIONS
      = [⟨"c2", "t1"⟩] ∧
    (deleteConversationMem
        ⟨[⟨"c1", "t0"⟩, ⟨"c2", "t1"⟩],
         [⟨"m1", "c1", "user", "hi", "t2", "chat"⟩,
          ⟨"m2", "c2", "user", "yo", "t3", "chat"⟩],
         [⟨"d1", "c1", "system", "dbg", "t4"⟩]⟩ "c1").1.MESSAGES
      = [⟨"m2", "c2", "user", "yo", "t3", "chat"⟩] ∧
    (deleteConversationFile ⟨[], [], []⟩ "nope").2 = true := by
  refine ⟨by decide, ?_, ?_, ?_⟩
  · have h := ((delete_conversation_cascade.2
      ⟨[⟨"c1", "t0"⟩, ⟨"c2", "t1"⟩],
       [⟨"m1", "c1", "user", "hi", "t2", "chat"⟩,
        ⟨"m2", "c2", "user", "yo", "t3", "chat"⟩],
       [⟨"d1", "c1", "system", "dbg", "t4"⟩]⟩ "c1").2.2.2.2.2 (by decide)).1
    rw [h]
    decide
  · have h := (delete_conversation_cascade.2
      ⟨[⟨"c1", "t0"⟩, ⟨"c2", "t1"⟩],
       [⟨"m1", "c1", "user", "hi", "t2", "chat"⟩,
        ⟨"m2", "c2", "user", "yo", "t3", "chat"⟩],
       [⟨"d1", "c1", "system", "dbg", "t4"⟩]⟩ "c1").2.1
    rw [h]
    decide
  · exact (delete_conversation_cascade.1 ⟨[], [], []⟩ "nope").1

/-- C6: listing a conversation's messages returns exactly the messages whose
conversation id equals it and whose message_type is chat, in store
(creation) order, and never a debug message.  The file variant filters on
both conditions directly; the in-memory variant filters on the conversation
id only, which coincides because every message ever pushed onto MESSAGES is
chat-typed (reachable states). -/
theorem list_messages_spec :
    (∀ (s : FileStore) (id : String),
      getMessagesFile s id
        = s.messages.filter
            (fun msg => msg.conversation_id == id && msg.message_type == "chat") ∧
      (∀ m ∈ getMessagesFile s id, m.conversation_id = id ∧ m.message_type = "chat") ∧
      (∀ m ∈ s.messages, m.conversation_id = id → m.message_type = "chat" →
        m ∈ getMessagesFile s id) ∧
      (List.Pairwise (fun a b => a.created_at ≤ b.created_at) s.messages →
        List.Pairwise (fun a b => a.created_at ≤ b.created_at) (getMessagesFile s id))) ∧
    (∀ (s : MemStore) (id : String), MemReachable s →
      getMessagesMem s id
        = s.MESSAGES.filter
            (fun msg => msg.conversationId == id && msg.message_type == "chat") ∧
      (∀ m ∈ getMessagesMem s id, m.conversationId = id ∧ m.message_type = "chat") ∧
      (∀ m ∈ s.MESSAGES, m.conversationId = id → m.message_type = "chat" →
        m ∈ getMessagesMem s id) ∧
      (List.Pairwise (fun a b => a.created_at ≤ b.created_at) s.MESSAGES →
        List.Pairwise (fun a b => a.created_at ≤ b.created_at) (getMessagesMem s id))) := by
  constructor
  · intro s id
    refine ⟨rfl, ?_, ?_, ?_⟩
    · intro m hm
      have h2 := (List.mem_filter.mp hm).2
      simp only [Bool.and_eq_true, beq_iff_eq] at h2
      exact h2
    · intro m hm h1 h2
      exact List.mem_filter.mpr ⟨hm, by simp [h1, h2]⟩
    · intro hsort
      exact List.Pairwise.sublist (List.filter_sublist _) hsort
  · intro s id hreach
    have hinv := memReachable_messages_chat hreach
    have hfeq : getMessagesMem s id
        = s.MESSAGES.filter
            (fun msg => msg.conversationId == id && msg.message_type == "chat") := by
      show s.MESSAGES.filter _ = _
      apply List.filter_congr
      intro m hm
      have hc := hinv m hm
      simp [hc]
    refine ⟨hfeq, ?_, ?_, ?_⟩
    · intro m hm
      have h1 := List.mem_filter.mp hm
      exact ⟨by simpa using h1.2, hinv m h1.1⟩
    · intro m hm h1 _h2
      exact List.mem_filter.mpr ⟨hm, by simp [h1]⟩
    · intro hsort
      exact List.Pairwise.sublist (List.filter_sublist _) hsort

/-- Witness for the message-listing theorem: the reachable store after one
chat turn, whose listing evaluates to the two chat messages in order. -/
theorem list_messages_spec_witness :
    MemReachable sampleMemStore ∧
    getMessagesMem sampleMemStore "c1"
      = sampleMemStore.MESSAGES.filter
          (fun msg => msg.conversationId == "c1" && msg.message_type == "chat") ∧
    getMessagesMem sampleMemStore "c1"
      = [⟨"m1", "c1", "user", "hi", "t1", "chat"⟩,
         ⟨"m2", "c1", "assistant", "hello", "t2", "chat"⟩] := by
  have hreach : MemReachable sampleMemStore :=
    MemReachable.chat initialMemStore "gpt-4o" ⟨"hi", "c1", none⟩
      (Except.ok ⟨[⟨⟨"assistant", "hello"⟩⟩]⟩) "m1" "m2" "t1" "t2" MemReachable.init
  exact ⟨hreach, (list_messages_spec.2 sampleMemStore "c1" hreach).1, by decide⟩

/-- C8 counterexample: two variants contradict parts of the claim.  The
in-memory create handler ignores the request body's title — supplying a
title produces exactly the same store and response as supplying none, and
the persisted record carries only the id and the timestamp — so the created
record does not contain the supplied title.  The SQLite handler answers only
`{id, title}` — the same response whatever the insertion timestamp — so the
returned record does not contain the current timestamp as created_at. -/
theorem create_conversation_title_counterexample :
    (postConversationsMem initialMemStore "c1" "t0" (some "My title")
      = postConversationsMem initialMemStore "c1" "t0" none ∧
    (postConversationsMem initialMemStore "c1" "t0" (some "My title")).1.CONVERSATIONS
      = [{ id := "c1", created_at := "t0" }]) ∧
    ((postConversationsSqlite [] "c1" (some "My title") "2024-01-01T00:00:00Z").2
      = (postConversationsSqlite [] "c1" (some "My title") "2099-12-31T00:00:00Z").2 ∧
    (postConversationsSqlite [] "c1" (some "My title") "2024-01-01T00:00:00Z").2
      = SqliteCreateResult.ok "c1" (some "My title")) :=
  ⟨⟨rfl, rfl⟩, ⟨rfl, rfl⟩⟩

/-- C8 (amended): createConversation persists a record with the freshly
drawn unique id and the current timestamp, and a subsequent listing includes
it (uniquely, when the id is fresh).  The file variant stores and returns
the full record with the supplied title; the SQLite variant stores the full
row — its created_at set by the column default — but returns only the id
and title, without created_at; the in-memory variant neither stores nor
returns the title, its handler never reads it. -/
theorem create_conversation_spec :
    (∀ (s : FileStore) (id : String) (title : Option String) (now : String),
      (postConversationsFile s id title now).2
        = { id := id, title := title, created_at := now } ∧
      (postConversationsFile s id title now).1.conversations
        = s.conversations ++ [{ id := id, title := title, created_at := now }] ∧
      (postConversationsFile s id title now).2
        ∈ getConversationsFile (postConversationsFile s id title now).1 ∧
      (id ∉ s.conversations.map Conversation.id →
        (postConversationsFile s id title now).1.conversations.filter
            (fun conv => conv.id == id)
          = [{ id := id, title := title, created_at := now }])) ∧
    (∀ (rows : List SqliteConversationRow) (id : String) (title : Option String)
        (now : String),
      id ∉ rows.map SqliteConversationRow.id →
      (postConversationsSqlite rows id title now).1
        = rows ++ [{ id := id, title := title, created_at := now }] ∧
      (postConversationsSqlite rows id title now).2
        = SqliteCreateResult.ok id title ∧
      ({ id := id, title := title, created_at := now } : SqliteConversationRow)
        ∈ getConversationsSqlite (postConversationsSqlite rows id title now).1 ∧
      (postConversationsSqlite rows id title now).1.filter (fun row => row.id == id)
        = [{ id := id, title := title, created_at := now }]) ∧
    (∀ (s : MemStore) (cid now : String) (title : Option String),
      (postConversationsMem s cid now title).2 = { id := cid, created_at := now } ∧
      (postConversationsMem s cid now title).1.CONVERSATIONS
        = s.CONVERSATIONS ++ [{ id := cid, created_at := now }] ∧
      (postConversationsMem s cid now title).2
        ∈ getConversationsMem (postConversationsMem s cid now title).1 ∧
      (∀ t₁ t₂ : Option String,
        postConversationsMem s cid now t₁ = postConversationsMem s cid now t₂)) := by
  refine ⟨?_, ?_, ?_⟩
  · intro s id title now
    have hconv : (postConversationsFile s id title now).1.conversations
        = s.conversations ++ [{ id := id, title := title, created_at := now }] := rfl
    have hret : (postConversationsFile s id title now).2
        = { id := id, title := title, created_at := now } := rfl
    refine ⟨hret, hconv, ?_, ?_⟩
    · rw [show getConversationsFile (postConversationsFile s id title now).1
            = (postConversationsFile s id title now).1.conversations from rfl, hconv, hret]
      exact List.mem_append.mpr (Or.inr (List.mem_singleton.mpr rfl))
    · intro hfresh
      rw [hconv, List.filter_append]
      have h1 : s.conversations.filter (fun conv => conv.id == id) = [] := by
        apply List.filter_eq_nil_iff.mpr
        intro c hc
        simp only [beq_iff_eq]
        intro hcid
        exact hfresh (hcid ▸ List.mem_map_of_mem Conversation.id hc)
      rw [h1]
      simp
  · intro rows id title now hfresh
    have hany : rows.any (fun row => row.id == id) = false := by
      rw [List.any_eq_false]
      intro row hrow
      simp only [beq_iff_eq]
      intro hrid
      exact hfresh (hrid ▸ List.mem_map_of_mem SqliteConversationRow.id hrow)
    have hins : postConversationsSqlite rows id title now
        = (rows ++ [{ id := id, title := title, created_at := now }],
           SqliteCreateResult.ok id title) := by
      unfold postConversationsSqlite
      rw [hany]
      rfl
    refine ⟨by rw [hins], by rw [hins], ?_, ?_⟩
    · rw [hins]
      unfold getConversationsSqlite
      rw [List.mem_mergeSort]
      exact List.mem_append.mpr (Or.inr (List.mem_singleton.mpr rfl))
    · rw [hins]
      rw [List.filter_append]
      have h1 : rows.filter (fun row => row.id == id) = [] := by
        apply List.filter_eq_nil_iff.mpr
        intro row hrow
        simp only [beq_iff_eq]
        intro hrid
        exact hfresh (hrid ▸ List.mem_map_of_mem SqliteConversationRow.id hrow)
      rw [h1]
      simp
  · intro s cid now title
    have hconv : (postConversationsMem s cid now title).1.CONVERSATIONS
        = s.CONVERSATIONS ++ [{ id := cid, created_at := now }] := rfl
    have hret : (postConversationsMem s cid now title).2
        = { id := cid, created_at := now } := rfl
    refine ⟨hret, hconv, ?_, fun _ _ => rfl⟩
    rw [show getConversationsMem (postConversationsMem s cid now title).1
          = (postConversationsMem s cid now title).1.CONVERSATIONS from rfl, hconv, hret]
    exact List.mem_append.mpr (Or.inr (List.mem_singleton.mpr rfl))

/-- Witness for the create-conversation theorem: a fresh id against a
one-conversation file store, and a fresh id against a one-row SQLite
table. -/
theorem create_conversation_spec_witness :
    (("c9" ∉ ([⟨"c1", some "x", "t0"⟩] : List Conversation).map Conversation.id) ∧
      (postConversationsFile ⟨[⟨"c1", some "x", "t0"⟩], [], []⟩ "c9" (some "T")
          "t5").1.conversations.filter (fun conv => conv.id == "c9")
        = [⟨"c9", some "T", "t5"⟩]) ∧
    (("c9" ∉ ([⟨"c1", some "x", "t0"⟩] : List SqliteConversationRow).map
        SqliteConversationRow.id) ∧
      (postConversationsSqlite [⟨"c1", some "x", "t0"⟩] "c9" (some "T") "t5").2
        = SqliteCreateResult.ok "c9" (some "T")) := by
  refine ⟨⟨by decide, ?_⟩, ⟨by decide, ?_⟩⟩
  · exact (create_conversation_spec.1 ⟨[⟨"c1", some "x", "t0"⟩], [], []⟩ "c9" (some "T")
      "t5").2.2.2 (by decide)
  · exact ((create_conversation_spec.2.1 [⟨"c1", some "x", "t0"⟩] "c9" (some "T")
      "t5" (by decide)).2).1

end AIChat
